import Mathlib

/-!
Verification of the response-normalization and asset-resolution layer of the
DataLens upload/analyze application.

The embedding models:
* `deepExtractAssetIds` from `src/app/api/upload/route.ts` (the asset-id
  resolver over schema-unknown JSON),
* the retry loop and branch structure of the upload `POST` handler
  (`src/app/api/upload/route.ts`),
* the normalization step of `handleAnalyze` from `src/app/page.tsx`
  (agent-invoke response → insights value, error message, report URL),
* the defaulting field accessors of `InsightsDisplay` from `src/app/page.tsx`.

JavaScript values are modelled by a mutual inductive `Json` type (objects as
ordered association lists, mirroring JS insertion-order key iteration).
-/

-- JSON/JS value model: objects are ordered field lists (JS objects iterate
-- keys in insertion order and have unique keys). The mutual shape keeps every
-- traversal structurally recursive.
mutual
inductive Json where
  | null : Json
  | bool : Bool → Json
  | num : Int → Json
  | str : String → Json
  | arr : JsonArray → Json
  | obj : JsonObject → Json
deriving DecidableEq

inductive JsonArray where
  | nil : JsonArray
  | cons : Json → JsonArray → JsonArray
deriving DecidableEq

inductive JsonObject where
  | nil : JsonObject
  | cons : String → Json → JsonObject → JsonObject
deriving DecidableEq
end

/-- The fixed priority list of recognized key names
(`route.ts` lines 32-36). -/
def idKeys : List String :=
  ["asset_id", "assetId", "asset_ids", "assetIds",
   "id", "_id", "file_id", "fileId",
   "upload_id", "uploadId", "document_id", "documentId"]

/-- `key in obj` / `obj[key]`: first binding of the key (JS objects hold each
key once). -/
def getKey : JsonObject → String → Option Json
  | JsonObject.nil, _ => none
  | JsonObject.cons k v rest, key => if k = key then some v else getKey rest key

/-- Non-empty string elements of an array value of a recognized key
(`route.ts` lines 43-47: `for (const v of val) if (typeof v === 'string' && v.length > 0) ids.push(v)`). -/
def stringsOfArray : JsonArray → List String
  | JsonArray.nil => []
  | JsonArray.cons (Json.str s) rest =>
      (if s.length > 0 then [s] else []) ++ stringsOfArray rest
  | JsonArray.cons _ rest => stringsOfArray rest

/-- Identifiers contributed by the value found under one recognized key
(`route.ts` lines 40-47): a non-empty string is accepted; an array
contributes its non-empty string elements; anything else contributes
nothing. -/
def idsOfNamedValue : Json → List String
  | Json.str s => if s.length > 0 then [s] else []
  | Json.arr items => stringsOfArray items
  | _ => []

/-- The named-key scan of one object level (`route.ts` lines 38-49): iterate
the fixed `idKeys` list in order, and for each key present in the object
collect the identifiers of its value. -/
def namedKeyIds (fields : JsonObject) : List String :=
  idKeys.flatMap (fun k =>
    match getKey fields k with
    | some v => idsOfNamedValue v
    | none => [])

-- The resolver proper, mutually recursive over the value / array / object
-- shapes so that every call is structural.
mutual
/-- `deepExtractAssetIds` (`route.ts` lines 14-62). Depth guard `depth > 10`
returns `[]`; non-objects return `[]` (`!obj || typeof obj !== 'object'`);
arrays collect string elements of length ≥ 10 and recurse into
object-typed elements; objects run the named-key scan and, only when it
yields nothing, recurse into every object-typed field value. -/
def deepExtractAssetIds (j : Json) (depth : Nat) : List String :=
  if depth > 10 then []
  else
    match j with
    | Json.arr items => extractArrayItems items depth
    | Json.obj fields =>
        if (namedKeyIds fields).length = 0 then extractObjectValues fields depth
        else namedKeyIds fields
    | _ => []

/-- The array branch (`route.ts` lines 20-29): a string element of length
≥ 10 is accepted; `null`, arrays and objects (`typeof item === 'object'`)
are recursed into at `depth + 1`; numbers and booleans are skipped. -/
def extractArrayItems (items : JsonArray) (depth : Nat) : List String :=
  match items with
  | JsonArray.nil => []
  | JsonArray.cons item rest =>
      (match item with
       | Json.str s => if s.length ≥ 10 then [s] else []
       | Json.num _ => []
       | Json.bool _ => []
       | _ => deepExtractAssetIds item (depth + 1)) ++ extractArrayItems rest depth

/-- The object fallback (`route.ts` lines 52-59): recurse into every field
value that is a non-null object or array (`val && typeof val === 'object'`),
in insertion order. -/
def extractObjectValues (fields : JsonObject) (depth : Nat) : List String :=
  match fields with
  | JsonObject.nil => []
  | JsonObject.cons _ v rest =>
      (match v with
       | Json.arr _ => deepExtractAssetIds v (depth + 1)
       | Json.obj _ => deepExtractAssetIds v (depth + 1)
       | _ => []) ++ extractObjectValues rest depth
end

-- Notational helpers for building concrete inputs.
def jobj1 (k : String) (v : Json) : Json :=
  Json.obj (JsonObject.cons k v JsonObject.nil)

def jobj2 (k1 : String) (v1 : Json) (k2 : String) (v2 : Json) : Json :=
  Json.obj (JsonObject.cons k1 v1 (JsonObject.cons k2 v2 JsonObject.nil))

def jarr1 (a : Json) : Json := Json.arr (JsonArray.cons a JsonArray.nil)

def jarr2 (a b : Json) : Json :=
  Json.arr (JsonArray.cons a (JsonArray.cons b JsonArray.nil))

/-- `data?.key` access on a parsed value: a field of an object, `none`
otherwise. -/
def getField (j : Json) (k : String) : Option Json :=
  match j with
  | Json.obj fields => getKey fields k
  | _ => none

/-- JS truthiness of a parsed JSON value (`null`, `false`, `0` and the empty
string are falsy; arrays and objects are truthy). -/
def jsTruthy : Json → Bool
  | Json.null => false
  | Json.bool b => b
  | Json.num n => decide (n ≠ 0)
  | Json.str s => decide (0 < s.length)
  | Json.arr _ => true
  | Json.obj _ => true

/-- A JS `a || b || c || dflt` chain over optional field reads: the first
present truthy value, else the default. -/
def firstTruthyOr : List (Option Json) → Json → Json
  | [], dflt => dflt
  | some v :: rest, dflt => if jsTruthy v then v else firstTruthyOr rest dflt
  | none :: rest, dflt => firstTruthyOr rest dflt

/-- One upstream upload attempt as the handler observes it: the HTTP status,
the raw response text, and the outcome of `JSON.parse` on that text (`none`
when parsing throws). The network transport itself is external. -/
structure UploadAttempt where
  status : Nat
  rawText : String
  parsedBody : Option Json
deriving DecidableEq

/-- `data` after the parse step (`route.ts` lines 132-137): the parsed JSON,
or `{_raw: responseText}` when parsing threw. -/
def attemptData (a : UploadAttempt) : Json :=
  a.parsedBody.getD (jobj1 "_raw" (Json.str a.rawText))

/-- `response.ok` of the Fetch API: status in the 2xx range. -/
def respOk (a : UploadAttempt) : Bool :=
  decide (200 ≤ a.status) && decide (a.status ≤ 299)

/-- The two-fieldname retry loop (`route.ts` lines 118-152), unrolled over
its two iterations (field names `file` then `files`): the first attempt is
final when it is 2xx with at least one extracted id, or when its status is
neither 422 nor 400; otherwise the second attempt runs and is final.
Returns the final attempt and the number of attempts made. -/
def runUploadLoop (a1 a2 : UploadAttempt) : UploadAttempt × Nat :=
  if respOk a1 ∧ 0 < (deepExtractAssetIds (attemptData a1) 0).length then (a1, 1)
  else if a1.status = 422 ∨ a1.status = 400 then (a2, 2)
  else (a1, 1)

/-- The upload `POST` handler's environment: whether the server API key is
configured, how many files the form data carried, the two possible upstream
attempts, and whether some step of the `try` body threw (with the thrown
message). -/
structure UploadRequest where
  apiKeyPresent : Bool
  numFiles : Nat
  attempt1 : UploadAttempt
  attempt2 : UploadAttempt
  thrown : Option String

/-- The JSON body the upload `POST` endpoint returns (the fields the claims
are about, plus the HTTP status it is sent with). -/
structure PostResult where
  success : Bool
  asset_ids : List String
  status : Nat
  message : String
  error : Option Json
deriving DecidableEq

/-- The error value of the upstream-failure branch (`route.ts` line 221):
`data?.detail || data?.message || data?.error || responseText.substring(0, 300)`. -/
def uploadErrorValue (a : UploadAttempt) : Json :=
  firstTruthyOr
    [getField (attemptData a) "detail",
     getField (attemptData a) "message",
     getField (attemptData a) "error"]
    (Json.str (a.rawText.take 300))

/-- The upload `POST` handler (`route.ts` lines 64-242): missing API key →
500; thrown exception anywhere in the `try` body → the catch branch, 500;
no files → 400; otherwise the retry loop runs and the final attempt's
outcome is normalized (2xx → deep extraction decides `success`; non-2xx →
failure with the upstream's status). -/
def handleUploadPost (req : UploadRequest) : PostResult :=
  if !req.apiKeyPresent then
    { success := false, asset_ids := [], status := 500,
      message := "LYZR_API_KEY not configured",
      error := some (Json.str "LYZR_API_KEY not configured on server") }
  else
    match req.thrown with
    | some e =>
        { success := false, asset_ids := [], status := 500,
          message := "Server error during upload",
          error := some (Json.str e) }
    | none =>
        if req.numFiles = 0 then
          { success := false, asset_ids := [], status := 400,
            message := "No files provided",
            error := some (Json.str "No files provided") }
        else
          let resp := (runUploadLoop req.attempt1 req.attempt2).1
          if respOk resp then
            let assetIds := deepExtractAssetIds (attemptData resp) 0
            { success := decide (0 < assetIds.length),
              asset_ids := assetIds,
              status := 200,
              message :=
                if 0 < assetIds.length then
                  "Successfully uploaded " ++ toString assetIds.length ++ " file(s)"
                else "Upload completed but no asset IDs found in response",
              error := none }
          else
            { success := false, asset_ids := [], status := resp.status,
              message := "Upload failed with status " ++ toString resp.status,
              error := some (uploadErrorValue resp) }

/-- One entry of `module_outputs.artifact_files` (`page.tsx` lines 74-78);
`file_url` is optional because the upstream value is schema-unknown. -/
structure ArtifactFile where
  file_url : Option String
  name : Option String
  format_type : Option String
deriving DecidableEq

/-- `module_outputs` of an agent-invoke response: `artifact_files` is
`none` when absent or not an array. -/
structure ModuleOutputs where
  artifact_files : Option (List ArtifactFile)
deriving DecidableEq

/-- `response` of an agent-invoke response: `result` may be any JSON value
(string payloads carry embedded JSON), `message` is an optional error text. -/
structure AgentBody where
  result : Option Json
  message : Option String
deriving DecidableEq

/-- An agent-invoke response as `handleAnalyze` observes it
(`page.tsx` lines 614-642 and spec section 3 `AgentInvokeResponse`). -/
structure AgentResponse where
  success : Bool
  session_id : Option String
  response : Option AgentBody
  module_outputs : Option ModuleOutputs
  error : Option String
deriving DecidableEq

/-- The degrade-to-summary wrapper `{ executive_summary: parsedResult }`
built on parse failure (`page.tsx` line 630). -/
def summaryOnly (s : String) : Json :=
  jobj1 "executive_summary" (Json.str s)

/-- The insights value `handleAnalyze` sets on the success path
(`page.tsx` lines 625-633): `response?.result`; when that is a string it is
parsed (via the ambient `JSON.parse`, passed here as `parse`), and on parse
failure wrapped as a summary-only object; non-string values pass through
unchanged (including an absent one). -/
def parsedInsights (parse : String → Option Json) (raw : AgentResponse) : Option Json :=
  match raw.response.bind AgentBody.result with
  | some (Json.str s) =>
      match parse s with
      | some j => some j
      | none => some (summaryOnly s)
  | other => other

/-- The report-URL extraction (`page.tsx` lines 635-640): the first element
of a present, non-empty `artifact_files` contributes its `file_url`, which
is kept only when truthy (non-empty). -/
def extractPdfUrl (raw : AgentResponse) : Option String :=
  match raw.module_outputs with
  | none => none
  | some m =>
      match m.artifact_files with
      | none => none
      | some artifacts =>
          if 0 < artifacts.length then
            match artifacts.head? with
            | none => none
            | some f =>
                match f.file_url with
                | none => none
                | some url => if 0 < url.length then some url else none
          else none

/-- The failure message cascade (`page.tsx` line 642):
`result?.error ?? result?.response?.message ?? 'Analysis failed. Please try again.'`. -/
def analysisFailureMessage (raw : AgentResponse) : String :=
  raw.error.getD ((raw.response.bind AgentBody.message).getD
    "Analysis failed. Please try again.")

/-- The whole normalization step of `handleAnalyze` (`page.tsx` lines
624-643): on `success` the insights value and the report URL are produced
(the error state stays clear); otherwise only the failure message is set
and no insights value exists. -/
def normalizeAnalyze (parse : String → Option Json) (raw : AgentResponse) :
    Except String (Option Json × Option String) :=
  if raw.success then Except.ok (parsedInsights parse raw, extractPdfUrl raw)
  else Except.error (analysisFailureMessage raw)

/-- Plain list view of a model array. -/
def jsonArrayToList : JsonArray → List Json
  | JsonArray.nil => []
  | JsonArray.cons a rest => a :: jsonArrayToList rest

/-- The presenter's defaulting list access
(`page.tsx` lines 333-336: `Array.isArray(data?.k) ? data.k : []`). -/
def arrayFieldOrEmpty (j : Json) (k : String) : List Json :=
  match getField j k with
  | some (Json.arr a) => jsonArrayToList a
  | _ => []

/-- The presenter's defaulting access to `statistics.key_metrics`
(`page.tsx` line 337). -/
def statisticsKeyMetrics (j : Json) : List Json :=
  match getField j "statistics" with
  | some stats => arrayFieldOrEmpty stats "key_metrics"
  | none => []

/-- Nesting helper: `wrapN n j` wraps `j` in `n` single-field objects
(`{a: {a: ... j ...}}`), one container level per step. -/
def wrapN : Nat → Json → Json
  | 0, j => j
  | n + 1, j => jobj1 "a" (wrapN n j)

-- Predicate: the string occurs somewhere in the value as an identifier a
-- named-key scan could produce, i.e. as a non-empty string value (or
-- non-empty string array element) of a recognized key of some object level.
mutual
def hasNamedId : Json → String → Bool
  | Json.obj fields, s => decide (s ∈ namedKeyIds fields) || hasNamedIdObj fields s
  | Json.arr items, s => hasNamedIdArr items s
  | _, _ => false

def hasNamedIdArr : JsonArray → String → Bool
  | JsonArray.nil, _ => false
  | JsonArray.cons item rest, s => hasNamedId item s || hasNamedIdArr rest s

def hasNamedIdObj : JsonObject → String → Bool
  | JsonObject.nil, _ => false
  | JsonObject.cons _ v rest, s => hasNamedId v s || hasNamedIdObj rest s
end

-- Concrete inputs used by the claim theorems, witnesses and
-- counterexamples.

/-- The same string under two recognized keys of one mapping:
`{asset_id: "x", id: "x"}`. -/
def dupKeysInput : Json :=
  jobj2 "asset_id" (Json.str "x") "id" (Json.str "x")

/-- The bare top-level array `["X", "Y"]` of the spec's shape table. -/
def bareShortArray : Json := jarr2 (Json.str "X") (Json.str "Y")

/-- `{results: [{asset_id: "X"}]}`. -/
def resultsShape : Json :=
  jobj1 "results" (jarr1 (jobj1 "asset_id" (Json.str "X")))

/-- `{asset_ids: ["X", "Y"]}`. -/
def assetIdsShape : Json :=
  jobj1 "asset_ids" (jarr2 (Json.str "X") (Json.str "Y"))

/-- `{data: {wrapper: {file: {id: "X"}}}}`. -/
def nestedShape : Json :=
  jobj1 "data" (jobj1 "wrapper" (jobj1 "file" (jobj1 "id" (Json.str "X"))))

/-- A bare top-level array whose elements pass the length-10 heuristic. -/
def bareLongArray : Json :=
  jarr2 (Json.str "XXXXXXXXXX") (Json.str "YYYYYYYYYY")

/-- A response nested 15 container levels deep whose only identifier sits
under 12 keys (11 `a` wrappers plus `asset_id`): the object holding the
identifier is reached after 11 recursion steps, one past the depth bound. -/
def deep15Response : Json :=
  wrapN 11 (jobj2 "asset_id" (Json.str "XXXXXXXXXXX") "deeper" (wrapN 3 Json.null))

/-- `{id: "x", nested: {asset_id: "long-identifier-123"}}`. -/
def nestedOnlyInput : Json :=
  jobj2 "id" (Json.str "x") "nested" (jobj1 "asset_id" (Json.str "long-identifier-123"))

/-- A first upload attempt that is 2xx but yields zero extractable
identifiers (body `{}`). -/
def okEmptyAttempt : UploadAttempt :=
  { status := 200, rawText := "{}", parsedBody := some (Json.obj JsonObject.nil) }

/-- A second attempt distinguishable from the first. -/
def secondAttempt : UploadAttempt :=
  { status := 201, rawText := "second", parsedBody := some Json.null }

/-- An artifact file carrying just a URL. -/
def artifactWithUrl (u : String) : ArtifactFile :=
  { file_url := some u, name := none, format_type := none }

/-- `module_outputs` holding the given artifact files. -/
def outputsWith (files : List ArtifactFile) : ModuleOutputs :=
  { artifact_files := some files }

/-- An agent response whose first artifact file carries an empty-string
`file_url`. -/
def emptyUrlResponse : AgentResponse :=
  { success := true, session_id := none, response := none,
    module_outputs := some (outputsWith [artifactWithUrl ""]), error := none }

/-- An agent response with two artifact files, `U1` then `U2`. -/
def twoArtifactResponse : AgentResponse :=
  { success := true, session_id := none, response := none,
    module_outputs := some (outputsWith [artifactWithUrl "U1", artifactWithUrl "U2"]),
    error := none }

/-- A parse that always fails (stands for `JSON.parse` on non-JSON text in
witnesses). -/
def noParse : String → Option Json := fun _ => none

/-- An agent response that reports failure with an explicit error text. -/
def failedResponse : AgentResponse :=
  { success := false, session_id := none, response := none,
    module_outputs := none, error := some "X" }

/-- An agent response whose `response.result` is the non-JSON text
`"not json"`. -/
def unparsedTextResponse : AgentResponse :=
  { success := true, session_id := none,
    response := some { result := some (Json.str "not json"), message := none },
    module_outputs := none, error := none }

/-- C1: on every branch of the upload `POST` handler (missing API key, no
files, upstream 2xx with or without resolved identifiers, upstream non-2xx,
thrown exception), the returned body's `success` field is true exactly when
its `asset_ids` list is non-empty. -/
theorem upload_post_success_iff_nonempty_assets (req : UploadRequest) :
    (handleUploadPost req).success = true ↔ (handleUploadPost req).asset_ids ≠ [] := by
  unfold handleUploadPost
  split
  · simp
  · split
    · simp
    · split
      · simp
      · dsimp only
        split
        · simp [List.length_pos]
        · simp

/-- C3 counterexample: a first attempt with a success status (200) and zero
resolved identifiers does not trigger a retry — the loop stops after one
attempt, contradicting the claim that such an outcome retries with the
second field name. -/
theorem upload_retry_not_on_ok_zero_ids :
    runUploadLoop okEmptyAttempt secondAttempt = (okEmptyAttempt, 1) := by rfl

/-- C3 amended: the upload loop makes exactly two attempts (field `file`
then `files`) precisely when the first attempt's HTTP status is 400 or 422;
every other first outcome — including a 2xx response with zero resolved
identifiers — ends after exactly one attempt. -/
theorem upload_retry_iff_client_error (a1 a2 : UploadAttempt) :
    (runUploadLoop a1 a2).2 = 2 ↔ (a1.status = 400 ∨ a1.status = 422) := by
  unfold runUploadLoop
  split
  · rename_i h
    have hok : respOk a1 = true := h.1
    simp only [respOk, Bool.and_eq_true, decide_eq_true_eq] at hok
    constructor
    · intro h1
      exact absurd (show (1 : Nat) = 2 from h1) (by omega)
    · intro h1
      exfalso
      rcases h1 with h1 | h1 <;> omega
  · split
    · rename_i h1 h2
      constructor
      · intro _; tauto
      · intro _; rfl
    · rename_i h1 h2
      constructor
      · intro h3
        exact absurd (show (1 : Nat) = 2 from h3) (by omega)
      · intro h3
        exact absurd (Or.symm h3) h2

/-- C4 counterexample: the resolver does not deduplicate — on
`{asset_id: "x", id: "x"}` the same identifier string appears twice in the
result (once per recognized key), so the output is not duplicate-free. -/
theorem resolve_duplicates_exist :
    ¬ List.Nodup (deepExtractAssetIds dupKeysInput 0) := by decide

/-- C4 amended: the resolver preserves first-seen traversal order but
performs no deduplication: a string sitting under several recognized key
names of one mapping appears once per occurrence — `{asset_id: s, id: s}`
resolves to `[s, s]` for every non-empty `s`. -/
theorem resolve_duplicates_per_occurrence (s : String) (hs : 0 < s.length) :
    deepExtractAssetIds (jobj2 "asset_id" (Json.str s) "id" (Json.str s)) 0 = [s, s] := by
  have h1 : namedKeyIds (JsonObject.cons "asset_id" (Json.str s)
      (JsonObject.cons "id" (Json.str s) JsonObject.nil)) = [s, s] := by
    simp [namedKeyIds, idKeys, getKey, idsOfNamedValue, hs]
  simp [jobj2, deepExtractAssetIds, h1]

/-- Witness for the amended C4 theorem at `s = "x"`. -/
theorem resolve_duplicates_per_occurrence_witness :
    deepExtractAssetIds (jobj2 "asset_id" (Json.str "x") "id" (Json.str "x")) 0
      = ["x", "x"] :=
  resolve_duplicates_per_occurrence "x" (by decide)

/-- C5 counterexample: on the bare top-level array `["X", "Y"]` (as
literally written in the claim) the resolver returns `[]`, not
`["X", "Y"]` — the one-character elements fail the length-10 heuristic of
the array branch. -/
theorem bare_short_array_cex :
    deepExtractAssetIds bareShortArray 0 ≠ ["X", "Y"] := by decide

/-- C5 amended: the five keyed shapes resolve exactly as claimed with the
literal values, and the bare top-level array shape resolves to its two
elements in order provided they pass the length-10 heuristic (here
`"XXXXXXXXXX"`, `"YYYYYYYYYY"`). -/
theorem resolve_known_shapes :
    deepExtractAssetIds (jobj1 "asset_id" (Json.str "X")) 0 = ["X"] ∧
    deepExtractAssetIds (jobj1 "id" (Json.str "X")) 0 = ["X"] ∧
    deepExtractAssetIds resultsShape 0 = ["X"] ∧
    deepExtractAssetIds assetIdsShape 0 = ["X", "Y"] ∧
    deepExtractAssetIds bareLongArray 0 = ["XXXXXXXXXX", "YYYYYYYYYY"] ∧
    deepExtractAssetIds nestedShape 0 = ["X"] := by decide

/-- C6 counterexample: in a response nested 15 container levels deep whose
only identifier sits under 12 keys (the object holding it is reached after
11 recursion steps), the identifier is NOT found — the claim asserts an
identifier at depth 12 is found. -/
theorem deep_identifier_beyond_bound_cex :
    "XXXXXXXXXXX" ∉ deepExtractAssetIds deep15Response 0 ∧
    deepExtractAssetIds deep15Response 0 = [] := by decide

/-- C6 amended: the recursion is bounded at depth 10 — any call at depth
greater than 10 yields `[]` (no further matches, not an error); concretely,
an identifier whose enclosing object sits 10 recursion steps from the entry
point (11 nested keys) is found, while one a single level deeper (12 nested
keys) is not. -/
theorem recursion_bound_behavior :
    (∀ (j : Json) (d : Nat), 10 < d → deepExtractAssetIds j d = []) ∧
    deepExtractAssetIds (wrapN 10 (jobj1 "asset_id" (Json.str "XXXXXXXXXXX"))) 0
      = ["XXXXXXXXXXX"] ∧
    deepExtractAssetIds (wrapN 11 (jobj1 "asset_id" (Json.str "XXXXXXXXXXX"))) 0
      = [] := by
  refine ⟨?_, by decide, by decide⟩
  intro j d hd
  cases j <;> simp [deepExtractAssetIds, hd]

/-- Witness for the bound clause of the amended C6 theorem at depth 11. -/
theorem recursion_bound_behavior_witness :
    deepExtractAssetIds Json.null 11 = [] :=
  recursion_bound_behavior.1 Json.null 11 (by decide)

/-- C10: the structural fallback of one mapping level runs only when the
named-key scan at that level produced zero identifiers; whenever any
recognized key yields an identifier, the result is exactly the named-key
scan's output, so identifiers that exist only deeper inside other values
are omitted — `{id: "x", nested: {asset_id: "long-identifier-123"}}`
resolves to `["x"]` only. -/
theorem named_keys_shortcircuit_fallback :
    (∀ (fields : JsonObject) (d : Nat), d ≤ 10 → namedKeyIds fields ≠ [] →
      deepExtractAssetIds (Json.obj fields) d = namedKeyIds fields) ∧
    deepExtractAssetIds nestedOnlyInput 0 = ["x"] := by
  refine ⟨?_, by decide⟩
  intro fields d hd hne
  have hlen : ¬ (namedKeyIds fields).length = 0 := by
    simpa [List.length_eq_zero] using hne
  simp [deepExtractAssetIds, Nat.not_lt.mpr hd, hlen]

/-- Witness for C10's general clause: an object whose named-key scan finds
`"x"` resolves to exactly that scan's output. -/
theorem named_keys_shortcircuit_fallback_witness :
    deepExtractAssetIds (Json.obj (JsonObject.cons "id" (Json.str "x") JsonObject.nil)) 0
      = namedKeyIds (JsonObject.cons "id" (Json.str "x") JsonObject.nil) :=
  named_keys_shortcircuit_fallback.1 _ 0 (by decide) (by decide)

/-- C8: when the agent-invoke response's success flag is false,
normalization signals a failure carrying `raw.error` if present, else
`raw.response.message`, else the generic fallback text, and never produces
any insights value. -/
theorem analyze_failure_signaling (parse : String → Option Json)
    (raw : AgentResponse) (h : raw.success = false) :
    (∀ e, raw.error = some e → normalizeAnalyze parse raw = Except.error e) ∧
    (raw.error = none → ∀ m, raw.response.bind AgentBody.message = some m →
      normalizeAnalyze parse raw = Except.error m) ∧
    (raw.error = none → raw.response.bind AgentBody.message = none →
      normalizeAnalyze parse raw = Except.error "Analysis failed. Please try again.") ∧
    (∀ ins url, normalizeAnalyze parse raw ≠ Except.ok (ins, url)) := by
  have hn : normalizeAnalyze parse raw = Except.error (analysisFailureMessage raw) := by
    simp [normalizeAnalyze, h]
  refine ⟨?_, ?_, ?_, ?_⟩
  · intro e he
    rw [hn]
    simp [analysisFailureMessage, he]
  · intro he m hm
    rw [hn]
    simp [analysisFailureMessage, he, hm]
  · intro he hm
    rw [hn]
    simp [analysisFailureMessage, he, hm]
  · intro ins url hcon
    rw [hn] at hcon
    exact Except.noConfusion hcon

/-- Witness for C8 on `{success: false, error: "X"}`. -/
theorem analyze_failure_signaling_witness :
    normalizeAnalyze noParse failedResponse = Except.error "X" :=
  (analyze_failure_signaling noParse failedResponse rfl).1 "X" rfl

/-- C2: on a successful agent-invoke response whose `response.result` is a
text string that fails structured parse, normalization yields (no failure
signalled) the summary-only object: `executive_summary` equals the raw
text verbatim, every list field and the statistics read back as empty
defaults through the presenter's defaulting accessors. -/
theorem analyze_parse_failure_degrades (parse : String → Option Json)
    (raw : AgentResponse) (s : String)
    (hs : raw.success = true)
    (hr : raw.response.bind AgentBody.result = some (Json.str s))
    (hp : parse s = none) :
    normalizeAnalyze parse raw = Except.ok (some (summaryOnly s), extractPdfUrl raw) ∧
    getField (summaryOnly s) "executive_summary" = some (Json.str s) ∧
    arrayFieldOrEmpty (summaryOnly s) "key_findings" = [] ∧
    arrayFieldOrEmpty (summaryOnly s) "data_patterns" = [] ∧
    arrayFieldOrEmpty (summaryOnly s) "anomalies" = [] ∧
    arrayFieldOrEmpty (summaryOnly s) "recommendations" = [] ∧
    getField (summaryOnly s) "statistics" = none ∧
    statisticsKeyMetrics (summaryOnly s) = [] := by
  refine ⟨?_, ?_, ?_, ?_, ?_, ?_, ?_, ?_⟩
  · simp [normalizeAnalyze, hs, parsedInsights, hr, hp]
  all_goals
    simp [getField, summaryOnly, jobj1, getKey, arrayFieldOrEmpty, statisticsKeyMetrics]

/-- Witness for C2 on `{success: true, response: {result: "not json"}}`
with a failing parse. -/
theorem analyze_parse_failure_degrades_witness :
    normalizeAnalyze noParse unparsedTextResponse
      = Except.ok (some (summaryOnly "not json"), none) :=
  (analyze_parse_failure_degrades noParse unparsedTextResponse "not json" rfl rfl rfl).1

/-- C9 counterexample: a first artifact file whose `file_url` is present
but is the empty string yields no report URL (JS truthiness filters it),
contradicting the claim that a present `file_url` is always taken. -/
theorem report_url_empty_string_cex :
    extractPdfUrl emptyUrlResponse = none ∧ extractPdfUrl emptyUrlResponse ≠ some "" := by
  decide

/-- C9 amended: the report URL is the first element's `file_url` of
`module_outputs.artifact_files` when that sequence is non-empty and the
first element's `file_url` is present AND non-empty; later elements are
ignored (`[{file_url:"U1"},{file_url:"U2"}]` yields `"U1"`), and an absent
field or empty sequence yields no URL without being an error. -/
theorem report_url_first_artifact :
    (∀ (raw : AgentResponse) (m : ModuleOutputs) (files : List ArtifactFile)
        (f : ArtifactFile) (u : String),
        raw.module_outputs = some m → m.artifact_files = some files →
        files.head? = some f → f.file_url = some u → 0 < u.length →
        extractPdfUrl raw = some u) ∧
    (∀ (raw : AgentResponse) (m : ModuleOutputs),
        raw.module_outputs = some m → m.artifact_files = some [] →
        extractPdfUrl raw = none) ∧
    (∀ (raw : AgentResponse) (m : ModuleOutputs),
        raw.module_outputs = some m → m.artifact_files = none →
        extractPdfUrl raw = none) ∧
    (∀ raw : AgentResponse, raw.module_outputs = none → extractPdfUrl raw = none) ∧
    extractPdfUrl twoArtifactResponse = some "U1" := by
  refine ⟨?_, ?_, ?_, ?_, by decide⟩
  · intro raw m files f u hm hf hh hu hlen
    cases files with
    | nil => exact Option.noConfusion hh
    | cons a rest =>
        have ha : a = f := by simpa using hh
        subst ha
        simp [extractPdfUrl, hm, hf, hu, hlen]
  · intro raw m hm hf
    simp [extractPdfUrl, hm, hf]
  · intro raw m hm hf
    simp [extractPdfUrl, hm, hf]
  · intro raw hm
    simp [extractPdfUrl, hm]

/-- Witness for C9's first clause on the two-artifact response. -/
theorem report_url_first_artifact_witness :
    extractPdfUrl twoArtifactResponse = some "U1" :=
  report_url_first_artifact.1 twoArtifactResponse (outputsWith [artifactWithUrl "U1", artifactWithUrl "U2"])
    [artifactWithUrl "U1", artifactWithUrl "U2"] (artifactWithUrl "U1") "U1"
    rfl rfl rfl rfl (by decide)


-- Helper: beyond the depth bound every call yields [].
theorem deepExtract_gt (j : Json) (d : Nat) (hd : 10 < d) :
    deepExtractAssetIds j d = [] := by
  cases j <;> simp [deepExtractAssetIds, hd]

-- Source lemma for C7: any string in the resolver's output either passes
-- the length-10 heuristic or was produced by a named-key scan somewhere in
-- the input. Proved mutually over the three traversals.
mutual
theorem memExtractVal (j : Json) (d : Nat) (s : String)
    (h : s ∈ deepExtractAssetIds j d) : 10 ≤ s.length ∨ hasNamedId j s = true := by
  by_cases hd : d > 10
  · rw [deepExtract_gt j d hd] at h
    cases h
  · unfold deepExtractAssetIds at h
    rw [if_neg hd] at h
    cases j with
    | arr items =>
        replace h : s ∈ extractArrayItems items d := h
        rcases memExtractArr items d s h with h1 | h1
        · exact Or.inl h1
        · exact Or.inr (by simp [hasNamedId, h1])
    | obj fields =>
        replace h : s ∈ (if (namedKeyIds fields).length = 0 then
            extractObjectValues fields d else namedKeyIds fields) := h
        by_cases hn : (namedKeyIds fields).length = 0
        · rw [if_pos hn] at h
          rcases memExtractObj fields d s h with h1 | h1
          · exact Or.inl h1
          · exact Or.inr (by simp [hasNamedId, h1])
        · rw [if_neg hn] at h
          exact Or.inr (by simp [hasNamedId, h])
    | null =>
        replace h : s ∈ ([] : List String) := h
        cases h
    | bool b =>
        replace h : s ∈ ([] : List String) := h
        cases h
    | num n =>
        replace h : s ∈ ([] : List String) := h
        cases h
    | str s2 =>
        replace h : s ∈ ([] : List String) := h
        cases h

theorem memExtractArr (items : JsonArray) (d : Nat) (s : String)
    (h : s ∈ extractArrayItems items d) :
    10 ≤ s.length ∨ hasNamedIdArr items s = true := by
  cases items with
  | nil =>
      replace h : s ∈ ([] : List String) := h
      cases h
  | cons item rest =>
      unfold extractArrayItems at h
      rw [List.mem_append] at h
      rcases h with h | h
      · cases item with
        | str s2 =>
            replace h : s ∈ (if s2.length ≥ 10 then [s2] else []) := h
            by_cases hl : s2.length ≥ 10
            · rw [if_pos hl] at h
              rw [List.mem_singleton] at h
              subst h
              exact Or.inl hl
            · rw [if_neg hl] at h
              cases h
        | num n =>
            replace h : s ∈ ([] : List String) := h
            cases h
        | bool b =>
            replace h : s ∈ ([] : List String) := h
            cases h
        | null =>
            replace h : s ∈ deepExtractAssetIds Json.null (d + 1) := h
            rcases memExtractVal Json.null (d + 1) s h with h1 | h1
            · exact Or.inl h1
            · exact Or.inr (by simp [hasNamedIdArr, h1])
        | arr a =>
            replace h : s ∈ deepExtractAssetIds (Json.arr a) (d + 1) := h
            rcases memExtractVal (Json.arr a) (d + 1) s h with h1 | h1
            · exact Or.inl h1
            · exact Or.inr (by simp [hasNamedIdArr, h1])
        | obj o =>
            replace h : s ∈ deepExtractAssetIds (Json.obj o) (d + 1) := h
            rcases memExtractVal (Json.obj o) (d + 1) s h with h1 | h1
            · exact Or.inl h1
            · exact Or.inr (by simp [hasNamedIdArr, h1])
      · rcases memExtractArr rest d s h with h1 | h1
        · exact Or.inl h1
        · exact Or.inr (by simp [hasNamedIdArr, h1])

theorem memExtractObj (fields : JsonObject) (d : Nat) (s : String)
    (h : s ∈ extractObjectValues fields d) :
    10 ≤ s.length ∨ hasNamedIdObj fields s = true := by
  cases fields with
  | nil =>
      replace h : s ∈ ([] : List String) := h
      cases h
  | cons k v rest =>
      unfold extractObjectValues at h
      rw [List.mem_append] at h
      rcases h with h | h
      · cases v with
        | str s2 =>
            replace h : s ∈ ([] : List String) := h
            cases h
        | num n =>
            replace h : s ∈ ([] : List String) := h
            cases h
        | bool b =>
            replace h : s ∈ ([] : List String) := h
            cases h
        | null =>
            replace h : s ∈ ([] : List String) := h
            cases h
        | arr a =>
            replace h : s ∈ deepExtractAssetIds (Json.arr a) (d + 1) := h
            rcases memExtractVal (Json.arr a) (d + 1) s h with h1 | h1
            · exact Or.inl h1
            · exact Or.inr (by simp [hasNamedIdObj, h1])
        | obj o =>
            replace h : s ∈ deepExtractAssetIds (Json.obj o) (d + 1) := h
            rcases memExtractVal (Json.obj o) (d + 1) s h with h1 | h1
            · exact Or.inl h1
            · exact Or.inr (by simp [hasNamedIdObj, h1])
      · rcases memExtractObj rest d s h with h1 | h1
        · exact Or.inl h1
        · exact Or.inr (by simp [hasNamedIdObj, h1])
end

/-- C7: a text string of length strictly less than 10 that never occurs in
a recognized named-key position (in particular, one appearing only as a
bare array element) is excluded from the resolver's result. -/
theorem short_bare_strings_excluded (j : Json) (d : Nat) (s : String)
    (hshort : s.length < 10) (hnamed : hasNamedId j s = false) :
    s ∉ deepExtractAssetIds j d := by
  intro hmem
  rcases memExtractVal j d s hmem with h | h
  · omega
  · rw [h] at hnamed
    exact Bool.noConfusion hnamed

/-- Witness for C7: the short bare array element `"short"` is excluded. -/
theorem short_bare_strings_excluded_witness :
    "short" ∉ deepExtractAssetIds (jarr1 (Json.str "short")) 0 :=
  short_bare_strings_excluded (jarr1 (Json.str "short")) 0 "short" (by decide) (by decide)
